import Mathlib

/-!
Verification of the repository-analysis service ("github critic").

The Python sources are shallowly embedded below:
- `src/app/utils/file_utils.py`   : `read_file_content`
- `src/app/services/github.py`    : directory exploration, file counting,
  the placeholder critique engine `analyze_code_file`, the path/batch
  analysis procedures over the in-memory job registry, and the
  heuristic `select_files_for_roasting` selection algorithm
- `src/app/api/routes/repositories.py` : the `/select` route logic

A repository snapshot is modelled as a tree of named entries.  A file
carries its byte size, its decoded text content and a `readable` flag
modelling whether `os.path.getsize`/`open` succeed on it (Python code
wraps those in `try`/`except`).  Machine strings are Lean `String`s;
all string primitives used by the code (`str.lower`, `in`,
`str.startswith`, `str.split('\n')`, `os.path.splitext`) are
re-implemented structurally below so that they evaluate.
-/

/-! ### String primitives -/

/-- `charsIsPref p s` is true iff the char list `p` is a prefix of `s`
(used to model `str.startswith`). -/
def charsIsPref : List Char → List Char → Bool
  | [], _ => true
  | _ :: _, [] => false
  | a :: as, b :: bs => a = b && charsIsPref as bs

/-- `strStartsWith s p` models Python `s.startswith(p)`. -/
def strStartsWith (s p : String) : Bool :=
  charsIsPref p.data s.data

/-- `charsContains pat hay` is true iff `pat` occurs as a contiguous
sublist of `hay` (used to model Python `pat in hay` on strings). -/
def charsContains (pat : List Char) : List Char → Bool
  | [] => charsIsPref pat []
  | c :: cs => charsIsPref pat (c :: cs) || charsContains pat cs

/-- `strContains s p` models Python `p in s`. -/
def strContains (s p : String) : Bool :=
  charsContains p.data s.data

/-- ASCII lowering of one character; the extension and path strings the
code lowers are ASCII, where Python `str.lower` acts exactly like this. -/
def charLower (c : Char) : Char :=
  if 'A' ≤ c ∧ c ≤ 'Z' then Char.ofNat (c.toNat + 32) else c

/-- `lowerStr s` models Python `s.lower()` (ASCII). -/
def lowerStr (s : String) : String :=
  String.mk (s.data.map charLower)

/-- `splitLines cs` models Python `content.split('\n')`: the segments of
`cs` delimited by newline characters (always one more segment than there
are newlines). -/
def splitLines : List Char → List (List Char)
  | [] => [[]]
  | c :: cs =>
    if c = '\n' then [] :: splitLines cs
    else
      match splitLines cs with
      | [] => [[c]]
      | l :: ls => (c :: l) :: ls

/-- Number of lines of a text, as computed by `len(content.split('\n'))`
throughout the Python code. -/
def fileLineCount (content : String) : Nat :=
  (splitLines content.data).length

/-- The extension part of `os.path.splitext(name)` for a path component:
the suffix starting at the last dot, provided some earlier character of
the name is not itself a dot (so `".git"` has extension `""`). -/
def splitext_ext (name : String) : String :=
  let cs := name.data
  let afterRev := cs.reverse.takeWhile (fun c => c ≠ '.')
  if afterRev.length = cs.length then ""
  else
    let dotIdx := cs.length - afterRev.length - 1
    if (cs.take dotIdx).any (fun c => c ≠ '.') then String.mk (cs.drop dotIdx) else ""

/-- `os.path.splitext(path)[1].lower()`, the form in which the code
always consumes extensions.  The extension of a full path equals the
extension of its final component, so callers pass the file name. -/
def extLower (name : String) : String :=
  lowerStr (splitext_ext name)

/-! ### Filesystem snapshots -/

/-- Data of one file in a snapshot.  `readable` models whether
`os.path.getsize`/`open` succeed for it. -/
structure FileData where
  size : Nat
  content : String
  readable : Bool
deriving Repr, DecidableEq

/-- A filesystem entry: a file with data, or a directory with children. -/
inductive Entry where
  | file (name : String) (data : FileData) : Entry
  | dir (name : String) (children : List Entry) : Entry
deriving Repr

/-- The name of an entry. -/
def Entry.name : Entry → String
  | .file n _ => n
  | .dir n _ => n

/-- Resolve a relative path (list of components) against an entry,
modelling `os.path.join(repo_path, path)` followed by the
`isfile`/`isdir` tests: `some` of the entry reached, or `none` when a
component is missing or a file is traversed into. -/
def resolve : Entry → List String → Option Entry
  | e, [] => some e
  | .file _ _, _ :: _ => none
  | .dir _ cs, n :: rest =>
    match cs.find? (fun c => c.name == n) with
    | some c => resolve c rest
    | none => none

/-- One file as encountered by a directory walk: the relative path of
its containing directory, its name, and its data. -/
structure FileRec where
  dir : List String
  name : String
  data : FileData
deriving Repr, DecidableEq

/-- The relative path of a walked file (`os.path.relpath(file_path, repo_path)`). -/
def FileRec.path (r : FileRec) : List String :=
  r.dir ++ [r.name]

/-- The files directly inside a directory with children `cs` whose
relative path is `pre` (the `files` component that `os.walk` reports for
that directory). -/
def filesPart (pre : List String) (cs : List Entry) : List FileRec :=
  cs.filterMap (fun e =>
    match e with
    | .file n d => some ⟨pre, n, d⟩
    | .dir _ _ => none)

/-- The files reported by `os.walk` strictly below the directory with
children `cs` at relative path `pre`: for each subdirectory in order,
its own files first, then its descendants' (top-down walk order). -/
def dirsWalk (pre : List String) : List Entry → List FileRec
  | [] => []
  | .file _ _ :: es => dirsWalk pre es
  | .dir n cs :: es =>
    (filesPart (pre ++ [n]) cs ++ dirsWalk (pre ++ [n]) cs) ++ dirsWalk pre es

/-- All files yielded by `os.walk` of the directory with children `cs`
at relative path `pre`, in walk order. -/
def walkFrom (pre : List String) (cs : List Entry) : List FileRec :=
  filesPart pre cs ++ dirsWalk pre cs

/-! ### Association-list dictionaries

Python `dict`s keyed by path strings are modelled as insertion-ordered
association lists keyed by path component lists.  `dinsert` is
`d[k] = v`; `dmerge a b` is `{**a, **b}`. -/

/-- Lookup in a path-keyed dictionary. -/
def dlookup {V : Type} (m : List (List String × V)) (k : List String) : Option V :=
  (m.find? (fun p => p.1 == k)).map (fun p => p.2)

/-- `d[k] = v`: replace the value at an existing key, else append. -/
def dinsert {V : Type} (m : List (List String × V)) (k : List String) (v : V) :
    List (List String × V) :=
  if m.any (fun p => p.1 == k) then
    m.map (fun p => if p.1 == k then (k, v) else p)
  else m ++ [(k, v)]

/-- `{**a, **b}`: entries of `b` override and extend those of `a`. -/
def dmerge {V : Type} (a b : List (List String × V)) : List (List String × V) :=
  b.foldl (fun acc p => dinsert acc p.1 p.2) a

/-! ### `read_file_content` (src/app/utils/file_utils.py) -/

/-- Prefix of the string returned when reading raises; the suffix is
`str(e)`, abstracted here since the specific exception text is
environment-dependent. -/
def errorReadingMsg : String :=
  "Error reading file: " ++ "exception"

/-- The placeholder returned for an oversized file. -/
def tooLargeMsg (file_size : Nat) : String :=
  "File too large to analyze (" ++ Nat.repr file_size ++ " bytes)"

/-- `read_file_content(file_path, max_size)`.  The input is `none` when
no file exists at the path (`os.path.getsize` raises), otherwise the
file's data; an unreadable file models `open`/`read` raising. -/
def read_file_content (f : Option FileData) (max_size : Nat := 1000000) : String :=
  match f with
  | none => errorReadingMsg
  | some d =>
    if d.size > max_size then tooLargeMsg d.size
    else if d.readable then d.content
    else errorReadingMsg

/-! ### Directory exploration (src/app/services/github.py) -/

/-- The fixed ignore-set of directory names (`ignore_dirs` in the source). -/
def ignore_dirs : List String :=
  [".git", "node_modules", "venv", "__pycache__", ".idea", ".vscode", "build", "dist"]

/-- The 15-entry code-extension list shared by `get_subdirectory_sizes`,
the `/select` and `/sample` routes and the default of
`select_files_for_roasting`. -/
def code_extensions : List String :=
  [".py", ".js", ".jsx", ".ts", ".tsx", ".java", ".c", ".cpp",
   ".cs", ".go", ".rb", ".php", ".swift", ".kt", ".rs"]

/-- Total number of files in a forest, counted by an *unpruned*
`os.walk` (every file of every descendant directory, ignored names
included) — the count `get_directory_contents` computes per listed
subdirectory. -/
def totalFilesList : List Entry → Nat
  | [] => 0
  | .file _ _ :: es => 1 + totalFilesList es
  | .dir _ cs :: es => totalFilesList cs + totalFilesList es

/-- Number of files whose lowercased extension is in `code_extensions`,
again by an unpruned walk (`code_files` in `get_subdirectory_sizes`). -/
def codeFilesList : List Entry → Nat
  | [] => 0
  | .file n _ :: es => (if extLower n ∈ code_extensions then 1 else 0) + codeFilesList es
  | .dir _ cs :: es => codeFilesList cs + codeFilesList es

/-- Number of children of a directory that are directories with a
non-ignored name (one summand of the `subdirs` count). -/
def nonIgnoredChildDirs (cs : List Entry) : Nat :=
  (cs.filter (fun e =>
    match e with
    | .dir n _ => decide (n ∉ ignore_dirs)
    | .file _ _ => false)).length

/-- The `subdirs` count of `get_subdirectory_sizes`: `os.walk` (unpruned)
visits every directory of the subtree and adds the number of its
non-ignored child directories. -/
def subdirsCountList : List Entry → Nat
  | [] => 0
  | .file _ _ :: es => subdirsCountList es
  | .dir _ cs :: es => (nonIgnoredChildDirs cs + subdirsCountList cs) + subdirsCountList es

/-- Comparator for `sorted(os.listdir(...))`: lexicographic order on names. -/
def nameLe (a b : Entry) : Prop := a.name ≤ b.name

instance : DecidableRel nameLe := fun a b => inferInstanceAs (Decidable (a.name ≤ b.name))

/-- Children of a directory in the order `sorted(os.listdir(full_path))`
produces (Python's sort is stable; its result on names is modelled by a
stable insertion sort). -/
def sortedChildren (cs : List Entry) : List Entry :=
  List.insertionSort nameLe cs

/-- A subdirectory entry of `get_directory_contents` output. -/
structure DirectoryFolder where
  name : String
  path : List String
  file_count : Nat
deriving Repr, DecidableEq

/-- A file entry of `get_directory_contents` output. -/
structure FileItem where
  name : String
  path : List String
  size : Nat
  extension : String
deriving Repr, DecidableEq

/-- The successful payload of `get_directory_contents`. -/
structure DirectoryContents where
  current_path : List String
  directories : List DirectoryFolder
  files : List FileItem
deriving Repr, DecidableEq

/-- `get_directory_contents(repo_path, dir_path)`: `none` models the
`{"error": "Directory not found"}` return; otherwise the sorted listing
in which ignored *directory* names are skipped, each subdirectory
carries the unpruned descendant file count, and each file carries its
size and lowercased extension. -/
def get_directory_contents (root : Entry) (dir_path : List String) : Option DirectoryContents :=
  match resolve root dir_path with
  | some (.dir _ cs) =>
    let items := sortedChildren cs
    some
      { current_path := dir_path
      , directories := items.filterMap (fun e =>
          match e with
          | .dir n cs2 =>
            if n ∈ ignore_dirs then none
            else some { name := n, path := dir_path ++ [n], file_count := totalFilesList cs2 }
          | .file _ _ => none)
      , files := items.filterMap (fun e =>
          match e with
          | .file n d =>
            some { name := n, path := dir_path ++ [n], size := d.size, extension := extLower n }
          | .dir _ _ => none) }
  | _ => none

/-- One row of `get_subdirectory_sizes` output. -/
structure DirectorySizeInfo where
  path : List String
  name : String
  total_files : Nat
  code_files : Nat
  subdirectories : Nat
deriving Repr, DecidableEq

/-- `get_subdirectory_sizes(repo_path, parent_path)`: for each
non-ignored immediate subdirectory (sorted), the unpruned file counts
and the walked subdirectory count; `[]` when the parent is missing. -/
def get_subdirectory_sizes (root : Entry) (parent_path : List String) : List DirectorySizeInfo :=
  match resolve root parent_path with
  | some (.dir _ cs) =>
    (sortedChildren cs).filterMap (fun e =>
      match e with
      | .dir n cs2 =>
        if n ∈ ignore_dirs then none
        else some
          { path := parent_path ++ [n], name := n
          , total_files := totalFilesList cs2
          , code_files := codeFilesList cs2
          , subdirectories := nonIgnoredChildDirs cs2 + subdirsCountList cs2 }
      | .file _ _ => none)
  | _ => []

/-! ### `count_files_in_paths` -/

/-- Whether a file name passes the optional extension filter
(`extensions is None or os.path.splitext(...)[1].lower() in extensions`). -/
def extFilterOk (extensions : Option (List String)) (name : String) : Bool :=
  match extensions with
  | none => true
  | some exts => extLower name ∈ exts

/-- The contribution of one input path to `count_files_in_paths`: a
matching single file counts itself; a directory is walked and every
matching contained file is counted under its repo-relative path; a
missing path contributes nothing. -/
def pathContribution (root : Entry) (extensions : Option (List String)) (p : List String) :
    Nat × List (List String) :=
  match resolve root p with
  | some (.file n _) => if extFilterOk extensions n then (1, [p]) else (0, [])
  | some (.dir _ cs) =>
    let fs := (walkFrom p cs).filter (fun r => extFilterOk extensions r.name)
    (fs.length, fs.map (fun r => r.path))
  | none => (0, [])

/-- `count_files_in_paths(repo_path, paths, extensions)`: the loop
accumulates each path's contribution in order into
`(total_files, file_paths)`. -/
def count_files_in_paths (root : Entry) (paths : List (List String))
    (extensions : Option (List String)) : Nat × List (List String) :=
  match paths with
  | [] => (0, [])
  | p :: ps =>
    let c := pathContribution root extensions p
    let rest := count_files_in_paths root ps extensions
    (c.1 + rest.1, c.2 ++ rest.2)

/-! ### `analyze_code_file` (placeholder critique engine) -/

def file_too_long_critique : String :=
  "This file has over 500 lines. Someone\x27s been skipping the \x27single responsibility\x27 lectures, huh?"

def long_lines_critique (long_lines : List Nat) : String :=
  "Lines " ++ String.intercalate (", ") ((long_lines.take 3).map Nat.repr)
    ++ (if long_lines.length > 3 then "..." else "")
    ++ " are longer than 100 chars. Horizontal scrolling: the preferred workout of developers who hate their colleagues."

def import_star_critique : String :=
  "Using \x27import *\x27? I see you like to live dangerously with namespace pollution. Bold move."

def naked_except_critique : String :=
  "Naked except clause? Ah, the \x27I have no idea what could go wrong, but I\x27ll pretend everything\x27s fine\x27 approach."

def var_critique : String :=
  "Still using \x27var\x27? Welcome to 2015! Let me show you this cool new thing called \x27let\x27 and \x27const\x27."

def console_log_critique : String :=
  "I see you\x27ve left some console.logs. The digital equivalent of leaving the price tag on your new hat."

def todo_critique : String :=
  "Nice TODOs. Planning to finish them this decade, or...?"

def fixme_critique : String :=
  "I see FIXMEs. The \x27I\x27ll definitely come back to this later\x27 that never happens."

def adequate_critique : String :=
  "This code looks suspiciously adequate. Either you\x27re good, or I\x27m not looking hard enough."

/-- The critiques `analyze_code_file` appends before its final
empty-check, in append order: file length, long lines, the
language-specific `if`/`elif` checks, then the generic TODO/FIXME
checks. -/
def collectedCritiques (file_path : String) (file_content : String) : List String :=
  let ext := extLower file_path
  let lines := splitLines file_content.data
  let long_lines := lines.enum.filterMap (fun p =>
    if p.2.length > 100 then some (p.1 + 1) else none)
  (if lines.length > 500 then [file_too_long_critique] else [])
  ++ (if long_lines.isEmpty then [] else [long_lines_critique long_lines])
  ++ (if ext = ".py" then
        (if strContains file_content "import *" then [import_star_critique] else [])
        ++ (if strContains file_content "except:" || strContains file_content "except Exception:"
            then [naked_except_critique] else [])
      else if ext ∈ [".js", ".jsx", ".ts", ".tsx"] then
        (if strContains file_content "var " then [var_critique] else [])
        ++ (if strContains file_content "console.log" then [console_log_critique] else [])
      else [])
  ++ (if strContains file_content "TODO" then [todo_critique] else [])
  ++ (if strContains file_content "FIXME" then [fixme_critique] else [])

/-- `analyze_code_file(file_path, file_content)`: a generic roast is
substituted when no specific check fired. -/
def analyze_code_file (file_path : String) (file_content : String) : List String :=
  let critiques := collectedCritiques file_path file_content
  if critiques.isEmpty then [adequate_critique] else critiques

/-! ### Job records (the in-memory `analysis_jobs` registry) -/

/-- `JobStatus` from src/app/models/schemas.py. -/
inductive JobStatus where
  | pending | cloning | analyzing | completed | failed
deriving Repr, DecidableEq

/-- A per-path analysis result: the recursive dictionary values stored
under `analysis_results` (`{"type": "file", "critiques": ...}`,
`{"type": "directory", "files": ...}`, `{"type": "error", "message": ...}`;
a directory result maps repo-relative file paths to their critiques). -/
inductive PathResult where
  | fileRes (critiques : List String)
  | dirRes (files : List (List String × List String))
  | errRes (message : String)
deriving Repr, DecidableEq

/-- The `analysis_results` dictionary. -/
abbrev Results := List (List String × PathResult)

/-- One record of the `analysis_jobs` dictionary.  The record keys that
the analysed procedures read or write are modelled as optional fields
(`none` = key absent); `{**job_data, k: v, ...}` is a structure update. -/
structure JobRecord where
  status : JobStatus
  message : String
  repo_path : Option Entry := none
  selected_paths : Option (List (List String)) := none
  file_paths : Option (List (List String)) := none
  total_batches : Option Nat := none
  completed_batches : Option Nat := none
  analysis_results : Option Results := none
  error : Option String := none
deriving Repr

/-! ### `analyze_selected_paths` -/

/-- The 14-entry extension allow-list of the directory branch of
`analyze_selected_paths` (source, markup — no config extensions). -/
def analysis_dir_extensions : List String :=
  [".py", ".js", ".jsx", ".ts", ".tsx", ".java", ".c", ".cpp",
   ".cs", ".go", ".rb", ".php", ".html", ".css"]

/-- The result computed for one selected path: a file is critiqued
directly; a directory is walked, non-code extensions skipped, and each
remaining file critiqued under its repo-relative path; a missing path
yields the error result. -/
def pathResult (repo : Entry) (p : List String) : PathResult :=
  match resolve repo p with
  | some (.file n d) =>
    .fileRes (analyze_code_file n (read_file_content (some d)))
  | some (.dir _ cs) =>
    .dirRes ((walkFrom p cs).foldl (fun acc r =>
      if extLower r.name ∈ analysis_dir_extensions then
        dinsert acc r.path (analyze_code_file r.name (read_file_content (some r.data)))
      else acc) [])
  | none => .errRes "Path not found"

/-- The fresh `results` dictionary `analyze_selected_paths` builds:
`results[path] = ...` for each selected path in order, starting from `{}`. -/
def computeResults (repo : Entry) (paths : List (List String)) : Results :=
  paths.foldl (fun res p => dinsert res p (pathResult repo p)) []

/-- `analyze_selected_paths(job_id, paths)` as a transformer of the
job's record.  When `repo_path` is absent the raised exception is caught
and the record marked FAILED; otherwise the record (as read at the start
of the procedure) is finally overwritten with status COMPLETED and
`analysis_results` set to the freshly computed dictionary.  The
intermediate ANALYZING write is subsumed by the final write, which
spreads the same initially-read `job_data`. -/
def analyze_selected_paths (jd : JobRecord) (paths : List (List String)) : JobRecord :=
  match jd.repo_path with
  | none =>
    { jd with status := .failed, message := "Analysis failed"
            , error := some "Repository not found. Please get the structure first." }
  | some repo =>
    { jd with status := .completed, message := "Analysis completed"
            , analysis_results := some (computeResults repo paths) }

/-! ### `analyze_selected_paths_in_batches` -/

/-- Analysis of one file of a batch: existing files get
`batch_results[file_path] = {"type": "file", "critiques": ...}`,
non-files are silently skipped. -/
def processBatchFile (repo : Entry) (acc : Results) (p : List String) : Results :=
  match resolve repo p with
  | some (.file n d) =>
    dinsert acc p (.fileRes (analyze_code_file n (read_file_content (some d))))
  | _ => acc

/-- The slice `file_paths[batch_idx*batch_size : min((batch_idx+1)*batch_size, total)]`. -/
def batchSlice (file_paths : List (List String)) (batch_size idx : Nat) : List (List String) :=
  (file_paths.drop (idx * batch_size)).take batch_size

/-- The `batch_results` dictionary built for one batch. -/
def batchResults (repo : Entry) (file_paths : List (List String)) (batch_size idx : Nat) :
    Results :=
  (batchSlice file_paths batch_size idx).foldl (processBatchFile repo) []

/-- The per-batch loop body over the job record: refresh the progress
message, then merge the batch results into the current
`analysis_results` and bump `completed_batches`. -/
def batchStep (repo : Entry) (file_paths : List (List String)) (batch_size : Nat)
    (jd : JobRecord) (idx : Nat) : JobRecord :=
  { jd with
    message := "Processing batch " ++ Nat.repr (idx + 1) ++ "/"
      ++ Nat.repr ((file_paths.length + batch_size - 1) / batch_size)
      ++ " (" ++ Nat.repr (idx * batch_size + 1) ++ "-"
      ++ Nat.repr (min (idx * batch_size + batch_size) file_paths.length)
      ++ " of " ++ Nat.repr file_paths.length ++ " files)..."
  , completed_batches := some (idx + 1)
  , analysis_results :=
      some (dmerge (jd.analysis_results.getD []) (batchResults repo file_paths batch_size idx)) }

/-- The `for batch_idx in range(total_batches)` loop. -/
def batchLoop (repo : Entry) (file_paths : List (List String)) (batch_size : Nat) :
    List Nat → JobRecord → JobRecord
  | [], jd => jd
  | idx :: rest, jd =>
    batchLoop repo file_paths batch_size rest (batchStep repo file_paths batch_size jd idx)

/-- `analyze_selected_paths_in_batches(job_id, batch_size)` as a
transformer of the job's record.  With a snapshot and a file list
present, the record is first rewritten with status ANALYZING,
`total_batches = (total + batch_size - 1) // batch_size`,
`completed_batches = 0` and — crucially — `analysis_results = {}`;
the batches then run; finally status COMPLETED.  A missing
snapshot/file list (or a zero batch size, where the ceiling division
raises `ZeroDivisionError`) is caught and the record marked FAILED. -/
def analyze_selected_paths_in_batches (jd : JobRecord) (batch_size : Nat) : JobRecord :=
  match jd.repo_path, jd.file_paths with
  | some repo, some file_paths =>
    if batch_size = 0 then
      { jd with status := .failed, message := "Analysis failed", error := some "division by zero" }
    else
      let total_files := file_paths.length
      let total_batches := (total_files + batch_size - 1) / batch_size
      let jd1 :=
        { jd with status := .analyzing
                , message := "Processing " ++ Nat.repr total_files ++ " files in "
                    ++ Nat.repr total_batches ++ " batches..."
                , total_batches := some total_batches
                , completed_batches := some 0
                , analysis_results := some [] }
      let jd2 := batchLoop repo file_paths batch_size (List.range total_batches) jd1
      { jd2 with status := .completed
               , message := "Analysis completed. Processed " ++ Nat.repr total_files
                   ++ " files in " ++ Nat.repr total_batches ++ " batches." }
  | _, _ =>
    { jd with status := .failed, message := "Analysis failed"
            , error := some "Repository not found or no files selected." }

/-! ### The `/select` route (src/app/api/routes/repositories.py) -/

/-- Response model of the `/select` route. -/
structure SelectionResponse where
  job_id : String
  selected_paths : List (List String)
  total_files : Nat
  message : String
deriving Repr, DecidableEq

/-- Message for a selection over the hard cap. -/
def overLimitMsg (total_files : Nat) : String :=
  "⚠️ Your selection contains " ++ Nat.repr total_files
    ++ " files, which exceeds the maximum limit of 200. Please select fewer files or specific subdirectories."

/-- Non-fatal warning message for a large (but accepted) selection. -/
def warningMsg (total_files : Nat) : String :=
  "⚠️ Warning: Your selection contains " ++ Nat.repr total_files
    ++ " files. Analysis may take some time. Consider selecting specific subdirectories instead."

/-- Normal selection message. -/
def selectedMsg (n_paths total_files : Nat) : String :=
  "Selected " ++ Nat.repr n_paths ++ " paths containing "
    ++ Nat.repr total_files ++ " code files"

/-- `select_paths(request)`: counts the matched code files; above 200
the warning response is returned and the job record is left untouched;
otherwise the selection is stored (`selected_paths`, `file_paths`) and
the response message warns when the count exceeds 50.  `none` models the
404/400 `HTTPException`s for a missing job or missing snapshot. -/
def select_paths (job_id : String) (jd : JobRecord) (paths : List (List String)) :
    Option (SelectionResponse × JobRecord) :=
  match jd.repo_path with
  | none => none
  | some repo =>
    let c := count_files_in_paths repo paths (some code_extensions)
    let total_files := c.1
    let file_paths := c.2
    if total_files > 200 then
      some ({ job_id := job_id, selected_paths := paths, total_files := total_files
            , message := overLimitMsg total_files }, jd)
    else
      let message :=
        if total_files > 50 then warningMsg total_files
        else selectedMsg paths.length total_files
      some ({ job_id := job_id, selected_paths := paths, total_files := total_files
            , message := message }
           , { jd with selected_paths := some paths, file_paths := some file_paths })

/-! ### `select_files_for_roasting` (the parameterised variant, line 1073) -/

/-- A candidate file `(rel_path, content, line_count, size)` collected
during selection. -/
structure Candidate where
  rel_path : List String
  content : String
  line_count : Nat
  size : Nat
deriving Repr, DecidableEq

/-- Normalisation of the caller's extension list: a falsy argument
(absent or empty) selects the default code extensions, otherwise each
entry is dotted if needed. -/
def effectiveExtensions (extensions : Option (List String)) : List String :=
  match extensions with
  | none => code_extensions
  | some [] => code_extensions
  | some exts => exts.map (fun e => if strStartsWith e (".") then e else "." ++ e)

/-- The string against which the directory filter is matched for the
directory at component path `pre`: `os.path.relpath(root, repo_path)`,
which is `"."` for the repository root itself. -/
def relRootStr (pre : List String) : String :=
  match pre with
  | [] => "."
  | _ => String.intercalate ("/") pre

/-- `is_in_specified_dirs(path)`: true when the filter is falsy, else a
string-prefix match against any listed directory. -/
def is_in_specified_dirs (directories : Option (List String)) (path : String) : Bool :=
  match directories with
  | none => true
  | some [] => true
  | some ds => ds.any (fun d => strStartsWith path d)

/-- Whether a file with the given data passes the primary pass's bounds:
byte size in `[500, 15000]` and line count in `[50, 500]`. -/
def primaryKeep (size line_count : Nat) : Bool :=
  500 ≤ size && size ≤ 15000 && 50 ≤ line_count && line_count ≤ 500

/-- Whether a file passes the relaxed fallback bound: at most 1000 lines. -/
def fallbackKeep (_size line_count : Nat) : Bool :=
  line_count ≤ 1000

/-- The candidate produced by one walked file, when its directory passes
the directory filter, its extension matches, it is readable, and the
`keep` bound holds. -/
def fileCandidate (exts : List String) (directories : Option (List String))
    (keep : Nat → Nat → Bool) (r : FileRec) : Option Candidate :=
  if is_in_specified_dirs directories (relRootStr r.dir)
      && decide (extLower r.name ∈ exts)
      && r.data.readable
      && keep r.data.size (fileLineCount r.data.content) then
    some ⟨r.path, r.data.content, fileLineCount r.data.content, r.data.size⟩
  else none

/-- One collection walk of `select_files_for_roasting` over the
repository (children `cs` of the repository root): both the primary and
the fallback loops are this walk with their respective `keep` bound
(the `continue` on a filtered-out directory skips only that directory's
own files; the walk still descends). -/
def collectCandidates (exts : List String) (directories : Option (List String))
    (keep : Nat → Nat → Bool) (cs : List Entry) : List Candidate :=
  (walkFrom [] cs).filterMap (fileCandidate exts directories keep)

/-- `complexity_score`: `abs(lines - 200) + abs(size - 5000)/100`,
Python float arithmetic modelled by exact rationals. -/
def complexity_score (c : Candidate) : ℚ :=
  |(c.line_count : ℚ) - 200| + |(c.size : ℚ) - 5000| / 100

/-- Comparator of the stable `code_files.sort(key=complexity_score)`. -/
def scoreLe (a b : Candidate) : Prop := complexity_score a ≤ complexity_score b

instance : DecidableRel scoreLe :=
  fun a b => inferInstanceAs (Decidable (complexity_score a ≤ complexity_score b))

/-- The pool the selection draws from: the primary-pass candidates, or —
when fewer than 5 qualify — the fallback re-walk's candidates. -/
def selectionPool (exts : List String) (directories : Option (List String))
    (cs : List Entry) : List Candidate :=
  let primary := collectCandidates exts directories primaryKeep cs
  if primary.length < 5 then collectCandidates exts directories fallbackKeep cs
  else primary

/-- `select_files_for_roasting(repo_path, ..., extensions, directories,
file_count, ...)` up to the final LLM calls: sort the pool by score
(stable), slice the top `min(file_count*3, len)` as candidates, and draw
`min(file_count, len(candidates))` distinct candidates via
`random.sample`, modelled by the `sample` parameter.  The Python
function then maps each selected file to a `(path, roast[, suggestions])`
tuple, one per selected file, so the returned candidates stand for the
returned tuples. -/
def select_files_for_roasting (sample : List Candidate → Nat → List Candidate)
    (root_children : List Entry) (extensions : Option (List String))
    (directories : Option (List String)) (file_count : Nat) : List Candidate :=
  let exts := effectiveExtensions extensions
  let code_files := selectionPool exts directories root_children
  let sorted := code_files.insertionSort scoreLe
  let candidates := sorted.take (min (file_count * 3) sorted.length)
  sample candidates (min file_count candidates.length)

/-- Deterministic stand-in for `random.sample`: any function returning
`k` of the pool's elements satisfies the hypotheses of the theorems
below; this one witnesses them. -/
def sampleTake (pool : List Candidate) (k : Nat) : List Candidate :=
  pool.take k

/-- Modelled from the claim's words, for comparison with the code: "the
number of readable files matching the extension filter under the
directory filter" — no size or line-count bound. -/
def totalAvailableMatchingFiles (exts : List String) (directories : Option (List String))
    (cs : List Entry) : Nat :=
  ((walkFrom [] cs).filter (fun r =>
    is_in_specified_dirs directories (relRootStr r.dir)
      && decide (extLower r.name ∈ exts)
      && r.data.readable)).length

/-! ### Derived forms of the batch run -/

/-- Merging a run of batch-result dictionaries into an accumulator, in
batch order. -/
def foldMerge (repo : Entry) (file_paths : List (List String)) (batch_size : Nat)
    (idxs : List Nat) (r : Results) : Results :=
  idxs.foldl (fun acc i => dmerge acc (batchResults repo file_paths batch_size i)) r

/-- The `analysis_results` value a whole batch run produces: all batch
results merged, in order, into the empty dictionary the run starts from. -/
def batchRunResults (repo : Entry) (file_paths : List (List String)) (batch_size : Nat) :
    Results :=
  foldMerge repo file_paths batch_size
    (List.range ((file_paths.length + batch_size - 1) / batch_size)) []

/-! ### Concrete snapshots and records used by witnesses and counterexamples -/

/-- A tiny readable file with content `"x"`. -/
def smallFile : FileData := { size := 1, content := "x", readable := true }

/-- Snapshot with two small code files at the root. -/
def twoFilesRepo : Entry :=
  .dir "" [.file "a.py" smallFile, .file "b.py" smallFile]

/-- A job that has cloned `twoFilesRepo` and selected `a.py`. -/
def jobA : JobRecord :=
  { status := .completed, message := ""
  , repo_path := some twoFilesRepo
  , selected_paths := some [["a.py"]]
  , file_paths := some [["a.py"]] }

/-- The record of `jobA` after a first batch run, re-pointed at `b.py`
(as the `/select` route does between runs). -/
def jobA_secondSelection : JobRecord :=
  { analyze_selected_paths_in_batches jobA 5 with
    selected_paths := some [["b.py"]], file_paths := some [["b.py"]] }

/-- A job holding `twoFilesRepo` and a pre-existing analysis entry for
the path `old`. -/
def jobWithOldResults : JobRecord :=
  { status := .completed, message := ""
  , repo_path := some twoFilesRepo
  , analysis_results := some [(["old"], .fileRes ["prior critique"])] }

/-- Snapshot whose only file sits beneath a nested `.git` directory. -/
def nestedIgnoredRepo : Entry :=
  .dir "" [.dir "src" [.dir ".git" [.file "config" smallFile]]]

/-- Text consisting of 1000 newline characters: 1001 lines. -/
def thousandNewlines : String :=
  String.mk (List.replicate 1000 '\n')

/-- A readable `.py` file of 1001 lines: it matches the extension filter
but fails both the primary bounds and the 1000-line fallback bound. -/
def hugeLineFileRepo : List Entry :=
  [.file "a.py" { size := 612, content := thousandNewlines, readable := true }]

/-- A readable 60-line, 600-byte `.py` file (passes the primary bounds). -/
def mediumFile : FileData :=
  { size := 600, content := String.mk (List.replicate 59 '\n'), readable := true }

/-- Five medium code files, so the primary pass keeps all of them. -/
def fiveFilesRepo : List Entry :=
  [.file "a.py" mediumFile, .file "b.py" mediumFile, .file "c.py" mediumFile,
   .file "d.py" mediumFile, .file "e.py" mediumFile]

/-- A job that has cloned a one-file repository. -/
def jobOneFile : JobRecord :=
  { status := .completed, message := ""
  , repo_path := some (Entry.dir "" [.file "a.py" smallFile]) }

/-- An empty cloned repository with 45 selected (non-existent) paths. -/
def job45 : JobRecord :=
  { status := .completed, message := ""
  , repo_path := some (Entry.dir "" [])
  , file_paths := some (List.replicate 45 ["x"]) }

/-! ### Helper lemmas: dictionaries -/

theorem dlookup_nil {V : Type} (k : List String) : dlookup ([] : List (List String × V)) k = none := rfl

theorem dlookup_cons {V : Type} (p : List String × V) (ps : List (List String × V))
    (k : List String) :
    dlookup (p :: ps) k = if p.1 = k then some p.2 else dlookup ps k := by
  by_cases h : p.1 = k <;>
    simp [dlookup, List.find?_cons_of_pos, List.find?_cons_of_neg, h]

theorem dlookup_map_subst_self {V : Type} (m : List (List String × V)) (k : List String) (v : V) :
    dlookup (m.map (fun p => if p.1 == k then (k, v) else p)) k
      = if m.any (fun p => p.1 == k) then some v else none := by
  induction m with
  | nil => simp [dlookup_nil]
  | cons p ps ih =>
    cases hb : (p.1 == k) with
    | true =>
      rw [List.map_cons, if_pos hb, dlookup_cons, List.any_cons, hb, Bool.true_or,
        if_pos rfl, if_pos rfl]
    | false =>
      have hp : p.1 ≠ k := by simpa using hb
      rw [List.map_cons, if_neg (by simp [hb]), dlookup_cons, if_neg hp, ih,
        List.any_cons, hb, Bool.false_or]

theorem dlookup_map_subst_ne {V : Type} (m : List (List String × V)) (k k' : List String)
    (v : V) (hne : k' ≠ k) :
    dlookup (m.map (fun p => if p.1 == k' then (k', v) else p)) k = dlookup m k := by
  induction m with
  | nil => simp
  | cons p ps ih =>
    cases hb : (p.1 == k') with
    | true =>
      have hp : p.1 = k' := by simpa using hb
      rw [List.map_cons, if_pos hb, dlookup_cons, dlookup_cons,
        if_neg (by simpa using hne), if_neg (fun e => hne (hp ▸ e)), ih]
    | false =>
      have hp : p.1 ≠ k' := by simpa using hb
      rw [List.map_cons, if_neg (by simp [hb]), dlookup_cons, dlookup_cons, ih]

theorem dlookup_append_of_some {V : Type} (m l : List (List String × V)) (k : List String)
    (w : V) (h : dlookup m k = some w) : dlookup (m ++ l) k = some w := by
  induction m with
  | nil => simp [dlookup_nil] at h
  | cons p ps ih =>
    rw [dlookup_cons] at h
    by_cases hp : p.1 = k
    · simpa [dlookup_cons, hp] using h
    · rw [if_neg hp] at h
      simpa [dlookup_cons, hp] using ih h

theorem dlookup_append_of_none {V : Type} (m l : List (List String × V)) (k : List String)
    (h : dlookup m k = none) : dlookup (m ++ l) k = dlookup l k := by
  induction m with
  | nil => simp
  | cons p ps ih =>
    rw [dlookup_cons] at h
    by_cases hp : p.1 = k
    · simp [hp] at h
    · rw [if_neg hp] at h
      simpa [dlookup_cons, hp] using ih h

theorem dlookup_eq_none_of_any_false {V : Type} (m : List (List String × V)) (k : List String)
    (h : m.any (fun p => p.1 == k) = false) : dlookup m k = none := by
  induction m with
  | nil => rfl
  | cons p ps ih =>
    simp only [List.any_cons, Bool.or_eq_false_iff] at h
    rw [dlookup_cons, if_neg (by simpa using h.1), ih h.2]

theorem dlookup_dinsert_self {V : Type} (m : List (List String × V)) (k : List String) (v : V) :
    dlookup (dinsert m k v) k = some v := by
  unfold dinsert
  by_cases h : m.any (fun p => p.1 == k)
  · rw [if_pos h, dlookup_map_subst_self, if_pos h]
  · rw [if_neg h,
      dlookup_append_of_none _ _ _
        (dlookup_eq_none_of_any_false m k (Bool.eq_false_iff.mpr h)),
      dlookup_cons]
    simp

theorem dlookup_dinsert_ne {V : Type} (m : List (List String × V)) (k k' : List String) (v : V)
    (hne : k ≠ k') : dlookup (dinsert m k' v) k = dlookup m k := by
  unfold dinsert
  by_cases h : m.any (fun p => p.1 == k')
  · rw [if_pos h, dlookup_map_subst_ne m k k' v (fun e => hne e.symm)]
  · rw [if_neg h]
    cases hm : dlookup m k with
    | none =>
      rw [dlookup_append_of_none _ _ _ hm, dlookup_cons,
        if_neg (fun e => hne e.symm), dlookup_nil]
    | some w => rw [dlookup_append_of_some _ _ _ _ hm]

theorem dlookup_dinsert_isSome {V : Type} (m : List (List String × V)) (k k' : List String)
    (v : V) (h : (dlookup m k).isSome) : (dlookup (dinsert m k' v) k).isSome := by
  by_cases hk : k = k'
  · subst hk; simp [dlookup_dinsert_self]
  · rwa [dlookup_dinsert_ne m k k' v hk]

theorem dlookup_dmerge_left {V : Type} (a b : List (List String × V)) (k : List String)
    (h : (dlookup a k).isSome) : (dlookup (dmerge a b) k).isSome := by
  induction b generalizing a with
  | nil => simpa [dmerge]
  | cons p ps ih =>
    simp only [dmerge, List.foldl_cons]
    exact ih (dinsert a p.1 p.2) (dlookup_dinsert_isSome a k p.1 p.2 h)

theorem dlookup_dmerge_right {V : Type} (a b : List (List String × V)) (k : List String)
    (h : (dlookup b k).isSome) : (dlookup (dmerge a b) k).isSome := by
  induction b generalizing a with
  | nil => simp [dlookup_nil] at h
  | cons p ps ih =>
    simp only [dmerge, List.foldl_cons]
    by_cases hk : p.1 = k
    · subst hk
      exact dlookup_dmerge_left _ ps p.1 (by simp [dlookup_dinsert_self])
    · have hps : (dlookup ps k).isSome := by
        rw [dlookup_cons, if_neg hk] at h
        exact h
      exact ih (dinsert a p.1 p.2) hps

/-! ### Helper lemmas: the batch loop -/

theorem batchLoop_append (repo : Entry) (fps : List (List String)) (B : Nat)
    (idxs1 idxs2 : List Nat) (jd : JobRecord) :
    batchLoop repo fps B (idxs1 ++ idxs2) jd
      = batchLoop repo fps B idxs2 (batchLoop repo fps B idxs1 jd) := by
  induction idxs1 generalizing jd with
  | nil => rfl
  | cons i rest ih => simp [batchLoop, ih]

theorem batchLoop_status (repo : Entry) (fps : List (List String)) (B : Nat)
    (idxs : List Nat) (jd : JobRecord) :
    (batchLoop repo fps B idxs jd).status = jd.status := by
  induction idxs generalizing jd with
  | nil => rfl
  | cons i rest ih => simp [batchLoop, ih, batchStep]

theorem batchLoop_total_batches (repo : Entry) (fps : List (List String)) (B : Nat)
    (idxs : List Nat) (jd : JobRecord) :
    (batchLoop repo fps B idxs jd).total_batches = jd.total_batches := by
  induction idxs generalizing jd with
  | nil => rfl
  | cons i rest ih => simp [batchLoop, ih, batchStep]

theorem batchLoop_repo_path (repo : Entry) (fps : List (List String)) (B : Nat)
    (idxs : List Nat) (jd : JobRecord) :
    (batchLoop repo fps B idxs jd).repo_path = jd.repo_path := by
  induction idxs generalizing jd with
  | nil => rfl
  | cons i rest ih => simp [batchLoop, ih, batchStep]

theorem batchLoop_completed (repo : Entry) (fps : List (List String)) (B : Nat)
    (n : Nat) (jd : JobRecord) :
    (batchLoop repo fps B (List.range n) jd).completed_batches
      = if n = 0 then jd.completed_batches else some n := by
  cases n with
  | zero => rfl
  | succ m =>
    rw [List.range_succ, batchLoop_append]
    simp [batchLoop, batchStep]

theorem batchLoop_results (repo : Entry) (fps : List (List String)) (B : Nat)
    (idxs : List Nat) (jd : JobRecord) (r : Results)
    (h : jd.analysis_results = some r) :
    (batchLoop repo fps B idxs jd).analysis_results = some (foldMerge repo fps B idxs r) := by
  induction idxs generalizing jd r with
  | nil => simpa [batchLoop, foldMerge]
  | cons i rest ih =>
    have hstep : (batchStep repo fps B jd i).analysis_results
        = some (dmerge r (batchResults repo fps B i)) := by
      simp [batchStep, h]
    simpa [batchLoop, foldMerge] using ih (batchStep repo fps B jd i) _ hstep

theorem foldMerge_isSome (repo : Entry) (fps : List (List String)) (B : Nat)
    (idxs : List Nat) (r : Results) (k : List String)
    (h : (dlookup r k).isSome) :
    (dlookup (foldMerge repo fps B idxs r) k).isSome := by
  induction idxs generalizing r with
  | nil => simpa [foldMerge]
  | cons i rest ih =>
    simpa [foldMerge] using ih _ (dlookup_dmerge_left _ _ _ h)

theorem foldl_processBatch_preserve (repo : Entry) (l : List (List String))
    (acc : Results) (p : List String) (h : (dlookup acc p).isSome) :
    (dlookup (l.foldl (processBatchFile repo) acc) p).isSome := by
  induction l generalizing acc with
  | nil => simpa
  | cons q rest ih =>
    refine ih _ ?_
    unfold processBatchFile
    cases hq : resolve repo q with
    | none => simpa using h
    | some e =>
      cases e with
      | dir n cs => simpa using h
      | file n d => exact dlookup_dinsert_isSome _ _ _ _ h

theorem foldl_processBatch_mem (repo : Entry) (l : List (List String))
    (acc : Results) (p : List String) (n : String) (d : FileData)
    (hp : p ∈ l) (hf : resolve repo p = some (.file n d)) :
    (dlookup (l.foldl (processBatchFile repo) acc) p).isSome := by
  induction l generalizing acc with
  | nil => simp at hp
  | cons q rest ih =>
    rcases List.mem_cons.mp hp with rfl | hmem
    · refine foldl_processBatch_preserve repo rest _ p ?_
      unfold processBatchFile
      rw [hf]
      simp [dlookup_dinsert_self]
    · exact ih _ hmem

theorem mem_batchSlice_exists (B : Nat) :
    ∀ (tb : Nat) (fps : List (List String)), fps.length ≤ tb * B →
      ∀ p ∈ fps, ∃ idx, idx < tb ∧ p ∈ batchSlice fps B idx := by
  intro tb
  induction tb with
  | zero =>
    intro fps hlen p hp
    have : fps = [] := List.eq_nil_of_length_eq_zero (by omega)
    simp [this] at hp
  | succ m ih =>
    intro fps hlen p hp
    by_cases hfirst : p ∈ fps.take B
    · exact ⟨0, Nat.succ_pos m, by simpa [batchSlice] using hfirst⟩
    · have hdrop : p ∈ fps.drop B := by
        have hsplit : p ∈ fps.take B ++ fps.drop B := by
          rw [List.take_append_drop]; exact hp
        rcases List.mem_append.mp hsplit with h | h
        · exact absurd h hfirst
        · exact h
      have hlen' : (fps.drop B).length ≤ m * B := by
        rw [List.length_drop]
        have : (m + 1) * B = m * B + B := Nat.succ_mul m B
        omega
      obtain ⟨idx, hidx, hmem⟩ := ih (fps.drop B) hlen' p hdrop
      refine ⟨idx + 1, by omega, ?_⟩
      have : (fps.drop B).drop (idx * B) = fps.drop ((idx + 1) * B) := by
        rw [List.drop_drop]
        congr 1
        have : (idx + 1) * B = idx * B + B := Nat.succ_mul idx B
        omega
      simpa [batchSlice, this] using hmem

theorem length_le_ceil_mul (L B : Nat) (hB : 0 < B) : L ≤ ((L + B - 1) / B) * B := by
  have h1 := Nat.div_add_mod (L + B - 1) B
  have h2 := Nat.mod_lt (L + B - 1) hB
  have h3 : B * ((L + B - 1) / B) = ((L + B - 1) / B) * B := Nat.mul_comm _ _
  omega

/-! ### Characterisation of a whole batch run -/

theorem run_analysis_results (jd : JobRecord) (repo : Entry) (fps : List (List String))
    (B : Nat) (hrepo : jd.repo_path = some repo) (hfps : jd.file_paths = some fps)
    (hB : 0 < B) :
    (analyze_selected_paths_in_batches jd B).analysis_results
      = some (batchRunResults repo fps B) := by
  unfold analyze_selected_paths_in_batches
  rw [hrepo, hfps]
  simp only [Nat.pos_iff_ne_zero.mp hB, if_neg (Nat.pos_iff_ne_zero.mp hB)]
  exact batchLoop_results _ _ _ _ _ _ rfl

theorem run_total_batches (jd : JobRecord) (repo : Entry) (fps : List (List String))
    (B : Nat) (hrepo : jd.repo_path = some repo) (hfps : jd.file_paths = some fps)
    (hB : 0 < B) :
    (analyze_selected_paths_in_batches jd B).total_batches
      = some ((fps.length + B - 1) / B) := by
  unfold analyze_selected_paths_in_batches
  rw [hrepo, hfps]
  simp only [if_neg (Nat.pos_iff_ne_zero.mp hB)]
  rw [batchLoop_total_batches]

theorem run_completed_batches (jd : JobRecord) (repo : Entry) (fps : List (List String))
    (B : Nat) (hrepo : jd.repo_path = some repo) (hfps : jd.file_paths = some fps)
    (hB : 0 < B) :
    (analyze_selected_paths_in_batches jd B).completed_batches
      = some ((fps.length + B - 1) / B) := by
  unfold analyze_selected_paths_in_batches
  rw [hrepo, hfps]
  simp only [if_neg (Nat.pos_iff_ne_zero.mp hB)]
  rw [batchLoop_completed]
  split
  · rename_i h; rw [h]
  · rfl

theorem run_status (jd : JobRecord) (repo : Entry) (fps : List (List String))
    (B : Nat) (hrepo : jd.repo_path = some repo) (hfps : jd.file_paths = some fps)
    (hB : 0 < B) :
    (analyze_selected_paths_in_batches jd B).status = .completed := by
  unfold analyze_selected_paths_in_batches
  rw [hrepo, hfps]
  simp only [if_neg (Nat.pos_iff_ne_zero.mp hB)]

theorem run_repo_path (jd : JobRecord) (repo : Entry) (fps : List (List String))
    (B : Nat) (hrepo : jd.repo_path = some repo) (hfps : jd.file_paths = some fps)
    (hB : 0 < B) :
    (analyze_selected_paths_in_batches jd B).repo_path = some repo := by
  unfold analyze_selected_paths_in_batches
  rw [hrepo, hfps]
  simp only [if_neg (Nat.pos_iff_ne_zero.mp hB)]
  rw [batchLoop_repo_path]

theorem foldMerge_isSome_of_mem (repo : Entry) (fps : List (List String)) (B : Nat)
    (p : List String) :
    ∀ (idxs : List Nat) (r : Results),
      (∃ i ∈ idxs, (dlookup (batchResults repo fps B i) p).isSome) →
      (dlookup (foldMerge repo fps B idxs r) p).isSome := by
  intro idxs
  induction idxs with
  | nil => intro r h; simp at h
  | cons i rest ih =>
    intro r h
    rcases h with ⟨j, hj, hsome⟩
    rcases List.mem_cons.mp hj with rfl | hjrest
    · have : (dlookup (dmerge r (batchResults repo fps B j)) p).isSome :=
        dlookup_dmerge_right _ _ _ hsome
      simpa [foldMerge] using foldMerge_isSome repo fps B rest _ p this
    · simpa [foldMerge] using ih _ ⟨j, hjrest, hsome⟩

theorem batchRunResults_covers (repo : Entry) (fps : List (List String)) (B : Nat)
    (hB : 0 < B) (p : List String) (hp : p ∈ fps) (n : String) (d : FileData)
    (hf : resolve repo p = some (.file n d)) :
    (dlookup (batchRunResults repo fps B) p).isSome := by
  obtain ⟨idx, hidx, hmem⟩ :=
    mem_batchSlice_exists B ((fps.length + B - 1) / B) fps
      (length_le_ceil_mul fps.length B hB) p hp
  unfold batchRunResults
  refine foldMerge_isSome_of_mem repo fps B p _ [] ⟨idx, List.mem_range.mpr hidx, ?_⟩
  unfold batchResults
  exact foldl_processBatch_mem repo _ [] p n d hmem hf

theorem ceil_div_le_iff (L B : Nat) (hB : 0 < B) (m : Nat) :
    (L + B - 1) / B ≤ m ↔ L ≤ B * m := by
  constructor
  · intro h
    calc L ≤ ((L + B - 1) / B) * B := length_le_ceil_mul L B hB
    _ ≤ m * B := Nat.mul_le_mul_right B h
    _ = B * m := Nat.mul_comm m B
  · intro h
    rw [Nat.div_le_iff_le_mul_add_pred hB]
    omega

/-- Claim C6: for a batch run over a file list of length `L` with batch
size `B > 0`, the job record's `total_batches` equals `⌈L/B⌉` (stated by
its Galois characterisation `tb ≤ m ↔ L ≤ B*m`); after the run,
`completed_batches` equals `total_batches`, the status is COMPLETED, and
`analysis_results` has an entry for every listed path that resolved to a
file. -/
theorem batch_run_spec (jd : JobRecord) (repo : Entry) (fps : List (List String)) (B : Nat)
    (hrepo : jd.repo_path = some repo) (hfps : jd.file_paths = some fps) (hB : 0 < B) :
    (analyze_selected_paths_in_batches jd B).total_batches = some ((fps.length + B - 1) / B)
    ∧ (∀ m : Nat, (fps.length + B - 1) / B ≤ m ↔ fps.length ≤ B * m)
    ∧ (analyze_selected_paths_in_batches jd B).completed_batches
        = (analyze_selected_paths_in_batches jd B).total_batches
    ∧ (analyze_selected_paths_in_batches jd B).status = .completed
    ∧ ∀ p ∈ fps, ∀ (n : String) (d : FileData), resolve repo p = some (.file n d) →
        (dlookup ((analyze_selected_paths_in_batches jd B).analysis_results.getD []) p).isSome := by
  refine ⟨run_total_batches jd repo fps B hrepo hfps hB,
    fun m => ceil_div_le_iff fps.length B hB m, ?_, run_status jd repo fps B hrepo hfps hB, ?_⟩
  · rw [run_total_batches jd repo fps B hrepo hfps hB,
      run_completed_batches jd repo fps B hrepo hfps hB]
  · intro p hp n d hf
    rw [run_analysis_results jd repo fps B hrepo hfps hB]
    exact batchRunResults_covers repo fps B hB p hp n d hf

/-- Witness for C6 at the spec's scenario `L = 45`, `B = 20`: three
batches of sizes 20, 20, 5, and the conclusion instantiated at a job
with 45 selected paths. -/
theorem batch_run_spec_witness :
    (0 : Nat) < 20
    ∧ (List.range 3).map
        (fun i => (batchSlice (List.replicate 45 (["x"] : List String)) 20 i).length)
        = [20, 20, 5]
    ∧ ((analyze_selected_paths_in_batches job45 20).total_batches
          = some (((List.replicate 45 (["x"] : List String)).length + 20 - 1) / 20)
        ∧ (∀ m : Nat, ((List.replicate 45 (["x"] : List String)).length + 20 - 1) / 20 ≤ m
            ↔ (List.replicate 45 (["x"] : List String)).length ≤ 20 * m)
        ∧ (analyze_selected_paths_in_batches job45 20).completed_batches
            = (analyze_selected_paths_in_batches job45 20).total_batches
        ∧ (analyze_selected_paths_in_batches job45 20).status = .completed
        ∧ ∀ p ∈ List.replicate 45 (["x"] : List String), ∀ (n : String) (d : FileData),
            resolve (Entry.dir "" []) p = some (.file n d) →
            (dlookup ((analyze_selected_paths_in_batches job45 20).analysis_results.getD [])
              p).isSome) :=
  ⟨by decide, by decide,
    batch_run_spec job45 (Entry.dir "" []) (List.replicate 45 ["x"]) 20 rfl rfl (by decide)⟩

/-- Claim C1 (counterexample): running batch-analysis twice in sequence
on the same job — first over `a.py`, then over the disjoint list
`b.py` — loses the first run's `a.py` entry: it is present after the
first run but absent from `analysis_results` after the second, because
each run resets `analysis_results` to the empty dictionary. -/
theorem batch_rerun_drops_first_run_entry :
    (dlookup ((analyze_selected_paths_in_batches jobA 5).analysis_results.getD [])
      ["a.py"]).isSome = true
    ∧ dlookup ((analyze_selected_paths_in_batches jobA_secondSelection 5).analysis_results.getD [])
        ["a.py"] = none := by
  exact ⟨by decide, by decide⟩

/-- Claim C1 (amended): a second batch run on the same job does not
merge with the first run's entries — it resets `analysis_results` to
empty and rebuilds it, so after the second run the map holds exactly the
second run's merged batch results, whatever the first run produced. -/
theorem batch_rerun_results (jd : JobRecord) (repo : Entry)
    (fps1 fps2 : List (List String)) (sp2 : Option (List (List String))) (B : Nat)
    (hrepo : jd.repo_path = some repo) (hfps1 : jd.file_paths = some fps1) (hB : 0 < B) :
    (analyze_selected_paths_in_batches
        { analyze_selected_paths_in_batches jd B with
            selected_paths := sp2, file_paths := some fps2 } B).analysis_results
      = some (batchRunResults repo fps2 B) := by
  refine run_analysis_results _ repo fps2 B ?_ rfl hB
  show (analyze_selected_paths_in_batches jd B).repo_path = some repo
  exact run_repo_path jd repo fps1 B hrepo hfps1 hB

/-- Witness for the amended C1 at the concrete two-run scenario. -/
theorem batch_rerun_results_witness :
    (analyze_selected_paths_in_batches jobA_secondSelection 5).analysis_results
      = some (batchRunResults twoFilesRepo [["b.py"]] 5) :=
  batch_rerun_results jobA twoFilesRepo [["a.py"]] [["b.py"]] (some [["b.py"]]) 5
    rfl rfl (by decide)

/-- Claim C3 (counterexample): a path-analysis run on a job whose record
already holds an `analysis_results` entry for the path `old` drops that
entry: the final write substitutes the freshly computed dictionary for
the existing one instead of merging. -/
theorem path_rerun_drops_prior_entry :
    (dlookup (jobWithOldResults.analysis_results.getD []) ["old"]).isSome = true
    ∧ dlookup ((analyze_selected_paths jobWithOldResults [["b.py"]]).analysis_results.getD [])
        ["old"] = none := by
  exact ⟨by decide, by decide⟩

/-- Claim C3 (amended): a path-analysis run on a job with a snapshot
ends COMPLETED with `analysis_results` equal to exactly the dictionary
of this run's per-path results — pre-existing entries for other paths
are replaced away, not merged. -/
theorem path_run_replaces_results (jd : JobRecord) (repo : Entry)
    (paths : List (List String)) (hrepo : jd.repo_path = some repo) :
    (analyze_selected_paths jd paths).analysis_results = some (computeResults repo paths)
    ∧ (analyze_selected_paths jd paths).status = .completed := by
  unfold analyze_selected_paths
  rw [hrepo]
  exact ⟨rfl, rfl⟩

/-- Witness for the amended C3 at the concrete record. -/
theorem path_run_replaces_results_witness :
    (analyze_selected_paths jobWithOldResults [["b.py"]]).analysis_results
      = some (computeResults twoFilesRepo [["b.py"]])
    ∧ (analyze_selected_paths jobWithOldResults [["b.py"]]).status = .completed :=
  path_run_replaces_results jobWithOldResults twoFilesRepo [["b.py"]] rfl

/-- Claim C7: a selection whose matched-file count exceeds 200 gets the
over-limit warning response and leaves the job record completely
unmodified; a count in (50, 200] is recorded (`selected_paths` and
`file_paths` both set) with only the response message carrying the
warning. -/
theorem select_paths_limits (job_id : String) (jd : JobRecord)
    (paths : List (List String)) (repo : Entry) (hrepo : jd.repo_path = some repo) :
    (200 < (count_files_in_paths repo paths (some code_extensions)).1 →
      select_paths job_id jd paths =
        some ({ job_id := job_id, selected_paths := paths
              , total_files := (count_files_in_paths repo paths (some code_extensions)).1
              , message := overLimitMsg (count_files_in_paths repo paths (some code_extensions)).1 }
             , jd))
    ∧ (50 < (count_files_in_paths repo paths (some code_extensions)).1 →
        (count_files_in_paths repo paths (some code_extensions)).1 ≤ 200 →
        select_paths job_id jd paths =
          some ({ job_id := job_id, selected_paths := paths
                , total_files := (count_files_in_paths repo paths (some code_extensions)).1
                , message := warningMsg (count_files_in_paths repo paths (some code_extensions)).1 }
               , { jd with selected_paths := some paths
                         , file_paths := some (count_files_in_paths repo paths (some code_extensions)).2 })) := by
  constructor
  · intro h
    simp only [select_paths, hrepo]
    rw [if_pos h]
  · intro h1 h2
    simp only [select_paths, hrepo]
    rw [if_neg (by omega), if_pos h1]

set_option maxRecDepth 20000 in
/-- Witness for C7: 201 duplicated single-file selections are rejected
with the job untouched; 60 are recorded with the warning message. -/
theorem select_paths_limits_witness :
    select_paths ("job") jobOneFile (List.replicate 201 ["a.py"])
      = some ({ job_id := "job", selected_paths := List.replicate 201 ["a.py"]
              , total_files := 201, message := overLimitMsg 201 }, jobOneFile)
    ∧ select_paths ("job") jobOneFile (List.replicate 60 ["a.py"])
      = some ({ job_id := "job", selected_paths := List.replicate 60 ["a.py"]
              , total_files := 60, message := warningMsg 60 }
             , { jobOneFile with
                   selected_paths := some (List.replicate 60 ["a.py"])
                 , file_paths := some (List.replicate 60 ["a.py"]) }) := by
  constructor
  · exact (select_paths_limits ("job") jobOneFile (List.replicate 201 ["a.py"]) _ rfl).1
      (by decide)
  · exact (select_paths_limits ("job") jobOneFile (List.replicate 60 ["a.py"]) _ rfl).2
      (by decide) (by decide)

/-! ### Helper lemmas: `count_files_in_paths` -/

theorem pathContribution_count (root : Entry) (exts : Option (List String)) (p : List String) :
    (pathContribution root exts p).1 = (pathContribution root exts p).2.length := by
  unfold pathContribution
  cases h : resolve root p with
  | none => rfl
  | some e =>
    cases e with
    | file n d =>
      by_cases hok : extFilterOk exts n <;> simp [hok]
    | dir n cs => simp

theorem resolve_file_getLast (p : List String) :
    ∀ (e : Entry) (n : String) (d : FileData), resolve e p = some (.file n d) →
      p = [] ∨ p.getLast? = some n := by
  induction p with
  | nil => intro e n d _; left; rfl
  | cons x rest ih =>
    intro e n d h
    right
    cases e with
    | file n2 d2 => simp [resolve] at h
    | dir n2 cs =>
      unfold resolve at h
      cases hfind : cs.find? (fun c => c.name == x) with
      | none => rw [hfind] at h; simp at h
      | some c =>
        rw [hfind] at h
        rcases ih c n d h with hnil | hlast
        · subst hnil
          simp only [resolve, Option.some.injEq] at h
          subst h
          have hname := List.find?_some hfind
          have hx : n = x := by simpa [Entry.name] using hname
          simp [hx]
        · have hne : rest ≠ [] := by
            intro e; subst e; simp at hlast
          obtain ⟨y, t, rfl⟩ := List.exists_cons_of_ne_nil hne
          rw [List.getLast?_cons_cons]
          exact hlast

/-- Claim C8: `count_files_in_paths` returns a pair whose count equals
the length of its path list, and under a filter every returned path's
final component has its lowercased extension in the filter list. -/
theorem count_files_in_paths_spec (root : Entry) (paths : List (List String))
    (exts : Option (List String)) (rn : String) (cs : List Entry) (l : List String) :
    (count_files_in_paths root paths exts).1 = (count_files_in_paths root paths exts).2.length
    ∧ ∀ p ∈ (count_files_in_paths (Entry.dir rn cs) paths (some l)).2,
        ∃ n, p.getLast? = some n ∧ extLower n ∈ l := by
  constructor
  · induction paths with
    | nil => rfl
    | cons p ps ih =>
      simp only [count_files_in_paths, List.length_append]
      rw [pathContribution_count, ih]
  · induction paths with
    | nil => intro p hp; simp [count_files_in_paths] at hp
    | cons q ps ih =>
      intro p hp
      simp only [count_files_in_paths] at hp
      rcases List.mem_append.mp hp with hc | hrest
      · unfold pathContribution at hc
        cases hres : resolve (Entry.dir rn cs) q with
        | none => rw [hres] at hc; simp at hc
        | some e =>
          cases e with
          | file n d =>
            rw [hres] at hc
            by_cases hok : extFilterOk (some l) n = true
            · simp only [hok, if_true, List.mem_singleton] at hc
              subst hc
              rcases resolve_file_getLast p _ n d hres with hnil | hlast
              · subst hnil; simp [resolve] at hres
              · exact ⟨n, hlast, by simpa [extFilterOk] using hok⟩
            · simp [hok] at hc
          | dir n2 cs2 =>
            rw [hres] at hc
            simp only [List.mem_map, List.mem_filter] at hc
            obtain ⟨r, ⟨_, hok⟩, rfl⟩ := hc
            refine ⟨r.name, ?_, by simpa [extFilterOk] using hok⟩
            simp [FileRec.path]
      · exact ih p hrest

/-- Witness for C8 on a concrete two-file repository with a duplicate
and a missing selection. -/
theorem count_files_in_paths_spec_witness :
    (count_files_in_paths twoFilesRepo [["a.py"], ["missing"], ["b.py"], ["a.py"]]
        (some [".py"])).1
      = (count_files_in_paths twoFilesRepo [["a.py"], ["missing"], ["b.py"], ["a.py"]]
          (some [".py"])).2.length
    ∧ ∀ p ∈ (count_files_in_paths
          (Entry.dir "" [.file "a.py" smallFile, .file "b.py" smallFile])
          [["a.py"], ["missing"], ["b.py"], ["a.py"]] (some [".py"])).2,
        ∃ n, p.getLast? = some n ∧ extLower n ∈ [".py"] :=
  count_files_in_paths_spec twoFilesRepo [["a.py"], ["missing"], ["b.py"], ["a.py"]]
    (some [".py"]) "" [.file "a.py" smallFile, .file "b.py" smallFile] [".py"]

/-- Claim C9: `read_file_content` is total at its interface — a missing
file yields the error string, a file over `max_size` yields the
too-large placeholder instead of its contents, an unreadable file yields
the error string, and otherwise the contents are returned. -/
theorem read_file_content_spec (d : FileData) (max_size : Nat) :
    read_file_content none max_size = errorReadingMsg
    ∧ (if d.size > max_size then read_file_content (some d) max_size = tooLargeMsg d.size
       else if d.readable = true then read_file_content (some d) max_size = d.content
       else read_file_content (some d) max_size = errorReadingMsg) := by
  refine ⟨rfl, ?_⟩
  unfold read_file_content
  by_cases h1 : d.size > max_size
  · simp [h1]
  · by_cases h2 : d.readable = true <;> simp [h1, h2]

/-- Claim C10: `analyze_code_file` always returns a non-empty critique
list; when no pattern-based check fires the single generic critique is
substituted. -/
theorem analyze_code_file_spec (file_path file_content : String) :
    analyze_code_file file_path file_content ≠ []
    ∧ (collectedCritiques file_path file_content ≠ []
       ∨ analyze_code_file file_path file_content = [adequate_critique]) := by
  unfold analyze_code_file
  by_cases h : collectedCritiques file_path file_content = []
  · simp [h]
  · exact ⟨by simp [h], Or.inl h⟩

/-- Claim C2 (amended, part proved generally): names in the ignore-set
never appear among the directory entries of `get_directory_contents`
output nor among the rows of `get_subdirectory_sizes`.  (The
file-count aggregates of both functions, however, are computed by
unpruned walks; the counterexample shows a file beneath a nested
ignored directory being counted.) -/
theorem ignore_dirs_listing_spec (root : Entry) (p : List String) :
    (∀ c, get_directory_contents root p = some c →
       ∀ d2 ∈ c.directories, d2.name ∉ ignore_dirs)
    ∧ (∀ i ∈ get_subdirectory_sizes root p, i.name ∉ ignore_dirs) := by
  constructor
  · intro c hc d2 hd2
    unfold get_directory_contents at hc
    cases hres : resolve root p with
    | none => rw [hres] at hc; exact absurd hc (by simp)
    | some e =>
      cases e with
      | file n d => rw [hres] at hc; exact absurd hc (by simp)
      | dir n cs =>
        rw [hres] at hc
        simp only [Option.some.injEq] at hc
        subst hc
        simp only [List.mem_filterMap] at hd2
        obtain ⟨e, _, hmap⟩ := hd2
        cases e with
        | file n2 d2' => simp at hmap
        | dir n2 cs2 =>
          by_cases hig : n2 ∈ ignore_dirs
          · simp [hig] at hmap
          · simp only [if_neg hig, Option.some.injEq] at hmap
            rw [← hmap]
            exact hig
  · intro i hi
    unfold get_subdirectory_sizes at hi
    cases hres : resolve root p with
    | none => rw [hres] at hi; simp at hi
    | some e =>
      cases e with
      | file n d => rw [hres] at hi; simp at hi
      | dir n cs =>
        rw [hres] at hi
        simp only [List.mem_filterMap] at hi
        obtain ⟨e, _, hmap⟩ := hi
        cases e with
        | file n2 d2' => simp at hmap
        | dir n2 cs2 =>
          by_cases hig : n2 ∈ ignore_dirs
          · simp [hig] at hmap
          · simp only [if_neg hig, Option.some.injEq] at hmap
            rw [← hmap]
            exact hig

/-- Witness for the amended C2, instantiated at the nested-`.git`
snapshot. -/
theorem ignore_dirs_listing_spec_witness :
    (∀ c, get_directory_contents nestedIgnoredRepo [] = some c →
       ∀ d2 ∈ c.directories, d2.name ∉ ignore_dirs)
    ∧ (∀ i ∈ get_subdirectory_sizes nestedIgnoredRepo [], i.name ∉ ignore_dirs) :=
  ignore_dirs_listing_spec nestedIgnoredRepo []

/-- Claim C2 (counterexample): in a snapshot whose only file lies
beneath `src/.git/`, the listed subdirectory `src` reports
`file_count = 1` in `get_directory_contents` and `total_files = 1` in
`get_subdirectory_sizes` — the counting walks descend into the ignored
directory, where the claim requires those aggregates to be 0. -/
theorem ignored_dir_counted_in_aggregates :
    (get_directory_contents nestedIgnoredRepo []).map
        (fun c => c.directories.map (fun d2 => (d2.name, d2.file_count)))
      = some [("src", 1)]
    ∧ (get_subdirectory_sizes nestedIgnoredRepo []).map
        (fun i => (i.name, i.total_files)) = [("src", 1)] := by
  constructor
  · simp [get_directory_contents, nestedIgnoredRepo, resolve, sortedChildren,
      List.insertionSort, totalFilesList, ignore_dirs]
  · simp [get_subdirectory_sizes, nestedIgnoredRepo, resolve, sortedChildren,
      List.insertionSort, totalFilesList, ignore_dirs]

/-- Claim C5: the primary pass keeps exactly the walked files (under the
directory filter, readable) whose lowercased extension matches the
filter, whose byte size lies in `[500, 15000]` and whose line count lies
in `[50, 500]`; the fallback pass keeps exactly those with a matching
extension and at most 1000 lines (no other bound); and the selection
pool is the fallback result exactly when fewer than 5 files pass the
primary pass, else the primary result. -/
theorem selection_passes_spec (exts : List String) (dirs : Option (List String))
    (cs : List Entry) :
    (∀ c, c ∈ collectCandidates exts dirs primaryKeep cs ↔
      ∃ r ∈ walkFrom [] cs,
        is_in_specified_dirs dirs (relRootStr r.dir) = true
        ∧ extLower r.name ∈ exts
        ∧ r.data.readable = true
        ∧ (500 ≤ r.data.size ∧ r.data.size ≤ 15000
            ∧ 50 ≤ fileLineCount r.data.content ∧ fileLineCount r.data.content ≤ 500)
        ∧ c = ⟨r.path, r.data.content, fileLineCount r.data.content, r.data.size⟩)
    ∧ (∀ c, c ∈ collectCandidates exts dirs fallbackKeep cs ↔
      ∃ r ∈ walkFrom [] cs,
        is_in_specified_dirs dirs (relRootStr r.dir) = true
        ∧ extLower r.name ∈ exts
        ∧ r.data.readable = true
        ∧ fileLineCount r.data.content ≤ 1000
        ∧ c = ⟨r.path, r.data.content, fileLineCount r.data.content, r.data.size⟩)
    ∧ selectionPool exts dirs cs
        = (if (collectCandidates exts dirs primaryKeep cs).length < 5
           then collectCandidates exts dirs fallbackKeep cs
           else collectCandidates exts dirs primaryKeep cs) := by
  refine ⟨?_, ?_, rfl⟩
  · intro c
    simp only [collectCandidates, List.mem_filterMap, fileCandidate, primaryKeep,
      Option.ite_none_right_eq_some, Bool.and_eq_true, decide_eq_true_iff,
      Option.some.injEq]
    constructor
    · rintro ⟨r, hr, ⟨⟨⟨hdir, hext⟩, hread⟩, ⟨⟨⟨hs1, hs2⟩, hl1⟩, hl2⟩⟩, heq⟩
      exact ⟨r, hr, hdir, hext, hread, ⟨hs1, hs2, hl1, hl2⟩, heq.symm⟩
    · rintro ⟨r, hr, hdir, hext, hread, ⟨hs1, hs2, hl1, hl2⟩, heq⟩
      exact ⟨r, hr, ⟨⟨⟨hdir, hext⟩, hread⟩, ⟨⟨⟨hs1, hs2⟩, hl1⟩, hl2⟩⟩, heq.symm⟩
  · intro c
    simp only [collectCandidates, List.mem_filterMap, fileCandidate, fallbackKeep,
      Option.ite_none_right_eq_some, Bool.and_eq_true, decide_eq_true_iff,
      Option.some.injEq]
    constructor
    · rintro ⟨r, hr, ⟨⟨⟨hdir, hext⟩, hread⟩, hl⟩, heq⟩
      exact ⟨r, hr, hdir, hext, hread, hl, heq.symm⟩
    · rintro ⟨r, hr, hdir, hext, hread, hl, heq⟩
      exact ⟨r, hr, ⟨⟨⟨hdir, hext⟩, hread⟩, hl⟩, heq.symm⟩

/-- Claim C4 (amended): under any sampler with `random.sample`'s
contract (`k` results whenever `k ≤ pool length`), the selection returns
exactly `min(desiredCount, poolSize)` files — never more than
`desiredCount` — where the pool is the candidate set left by the
primary/fallback passes, not the full set of readable
extension-matching files. -/
theorem select_count_spec (sample : List Candidate → Nat → List Candidate)
    (hsample : ∀ pool k, k ≤ pool.length → (sample pool k).length = k)
    (cs : List Entry) (extensions dirs : Option (List String)) (file_count : Nat) :
    (select_files_for_roasting sample cs extensions dirs file_count).length
      = min file_count (selectionPool (effectiveExtensions extensions) dirs cs).length
    ∧ (select_files_for_roasting sample cs extensions dirs file_count).length ≤ file_count := by
  have hmain : (select_files_for_roasting sample cs extensions dirs file_count).length
      = min file_count (selectionPool (effectiveExtensions extensions) dirs cs).length := by
    unfold select_files_for_roasting
    have hsort : (List.insertionSort scoreLe
        (selectionPool (effectiveExtensions extensions) dirs cs)).length
        = (selectionPool (effectiveExtensions extensions) dirs cs).length :=
      List.length_insertionSort scoreLe _
    rw [hsample _ _ (Nat.min_le_right _ _), List.length_take, hsort]
    omega
  exact ⟨hmain, hmain ▸ Nat.min_le_left _ _⟩

/-- Witness for the amended C4: five medium files, two requested, two
returned (with `random.sample` instantiated by a front-slice sampler). -/
theorem select_count_spec_witness :
    (select_files_for_roasting sampleTake fiveFilesRepo none none 2).length
      = min 2 (selectionPool (effectiveExtensions none) none fiveFilesRepo).length
    ∧ (select_files_for_roasting sampleTake fiveFilesRepo none none 2).length ≤ 2 :=
  select_count_spec sampleTake
    (fun pool k hk => by simp [sampleTake, List.length_take, Nat.min_eq_left hk])
    fiveFilesRepo none none 2

set_option maxRecDepth 100000 in
/-- Claim C4 (counterexample): a repository with exactly one readable
extension-matching file of 1001 lines and `desiredCount = 1` returns no
files at all — the file fails both the primary bounds and the 1000-line
fallback bound — although `min(desiredCount, totalAvailableMatchingFiles)
= 1`, refuting the claimed lower bound. -/
theorem select_below_claimed_lower_bound :
    (select_files_for_roasting sampleTake hugeLineFileRepo none none 1).length = 0
    ∧ totalAvailableMatchingFiles (effectiveExtensions none) none hugeLineFileRepo = 1
    ∧ (select_files_for_roasting sampleTake hugeLineFileRepo none none 1).length
        < min 1 (totalAvailableMatchingFiles (effectiveExtensions none) none hugeLineFileRepo) := by
  have hlines : fileLineCount thousandNewlines = 1001 := by decide
  have hpool : selectionPool (effectiveExtensions none) none hugeLineFileRepo = [] := by
    simp [selectionPool, collectCandidates, walkFrom, hugeLineFileRepo, filesPart,
      dirsWalk, fileCandidate, primaryKeep, fallbackKeep, hlines, is_in_specified_dirs,
      relRootStr]
  have hzero : (select_files_for_roasting sampleTake hugeLineFileRepo none none 1).length = 0 := by
    simp [select_files_for_roasting, hpool, sampleTake]
  have hone : totalAvailableMatchingFiles (effectiveExtensions none) none hugeLineFileRepo = 1 := by
    simp [totalAvailableMatchingFiles, hugeLineFileRepo, walkFrom, filesPart, dirsWalk,
      is_in_specified_dirs, relRootStr, effectiveExtensions]
    decide
  refine ⟨hzero, hone, ?_⟩
  rw [hzero, hone]
  decide
